import Mathlib

/-!
Verification of the cache-aside data-access layer of the Hapta repository.

Embedded source files:
  - CacheHandler         (src/unnamed/part_001, lines 42-158, imported by the
    coordinator as "./CacheManager")
  - DatabaseService      (src/src/core/CrudManager.ts)

Conventions of the embedding:
  - JavaScript `Map` objects become insertion-ordered association lists over
    `String` keys; `Map.set` replaces in place, `Map.delete` filters.
  - `Date.now()` becomes an explicit `now : Nat` argument (milliseconds).
  - The external JS runtime facilities used by the cache — `JSON.stringify`,
    `JSON.parse`, `Bun.gzipSync`, `Bun.gunzipSync` — are passed in as explicit
    function bundles (`JSJson`, `GzipLib`); a `none` result models the call
    throwing, which the source catches.  `TextEncoder`/`TextDecoder` become
    `String.data` / `String.mk`.
  - The broadcast callback becomes a `hasBroadcastCallback` flag plus an
    explicit list of emitted `CacheSyncMessage`s returned by each operation.
  - The remote Pocketbase store becomes an oracle bundle `RemoteStore` whose
    methods return `Except RemoteErr`; an `error` models the remote call
    throwing.
-/

deriving instance DecidableEq for Except

/-- Insertion-ordered association-list lookup, modelling JS `Map.get`. -/
def mapGet {β : Type} (m : List (String × β)) (k : String) : Option β :=
  match m with
  | [] => none
  | (k', v) :: rest => if k' = k then some v else mapGet rest k

/-- Insertion-ordered association-list insertion, modelling JS `Map.set`:
replaces an existing binding in place, otherwise appends. -/
def mapSet {β : Type} (m : List (String × β)) (k : String) (v : β) :
    List (String × β) :=
  match m with
  | [] => [(k, v)]
  | (k', v') :: rest =>
    if k' = k then (k, v) :: rest else (k', v') :: mapSet rest k v

/-- Association-list removal, modelling JS `Map.delete`. -/
def mapDelete {β : Type} (m : List (String × β)) (k : String) :
    List (String × β) :=
  m.filter (fun p => !(p.1 = k))

/-- Whether the map has a binding for `k`, modelling the boolean result of JS
`Map.delete`. -/
def mapHas {β : Type} (m : List (String × β)) (k : String) : Bool :=
  (mapGet m k).isSome

/-- Substring occurrence on character lists (JS `String.includes`). -/
def hasSubseg (pat : List Char) : List Char → Bool
  | [] => pat.isEmpty
  | c :: rest => pat.isPrefixOf (c :: rest) || hasSubseg pat rest

/-- JS `key.includes(pat)`. -/
def strIncludes (s pat : String) : Bool :=
  hasSubseg pat.data s.data

/-- JS `s.startsWith(pre)` (code-point semantics). -/
def strStarts (s pre : String) : Bool :=
  pre.data.isPrefixOf s.data

/-- The key guard of `CacheHandler.set` (src/unnamed/part_001 line 67):
`!key.includes("undefined") && !key.includes("null")`. -/
def keyValid (key : String) : Bool :=
  !(strIncludes key "undefined") && !(strIncludes key "null")

/-- Fixed compression threshold (src/unnamed/part_001 line 43). -/
def COMPRESSION_THRESHOLD : Nat := 1024

/-- The `JSON.stringify` / `JSON.parse` pair of the ambient JS runtime,
specialised to the value type stored in the cache.  A `none` result models the
call throwing. -/
structure JSJson (V : Type) where
  stringify : V → Option String
  parse : String → Option V

/-- The `Bun.gzipSync` / `Bun.gunzipSync` pair of the ambient runtime, acting
on encoded character sequences.  A `none` result models the call throwing. -/
structure GzipLib where
  gzip : List Char → Option (List Char)
  gunzip : List Char → Option (List Char)

/-- The payload slot of a cache entry: either the raw value (`compressed`
absent) or the gzip bytes (`compressed: true`). -/
inductive Payload (V : Type) where
  | raw (v : V)
  | compressed (bytes : List Char)
deriving DecidableEq

/-- A cache entry `{ data, ttl, compressed? }` (src/unnamed/part_001 line 54).
`ttl` stores the absolute expiry timestamp in ms; `0` means no expiry. -/
structure CacheEntry (V : Type) where
  data : Payload V
  ttl : Nat
deriving DecidableEq

/-- Sync actions of a `CacheSyncMessage` (src/unnamed/part_001 lines 45-51). -/
inductive SyncAction where
  | set
  | del
  | invalidate
deriving DecidableEq

/-- A `CacheSyncMessage` handed to the broadcast callback. -/
structure CacheSyncMessage (V : Type) where
  action : SyncAction
  key : String
  data : Option V
  expiresAt : Option Nat
  source : Int
deriving DecidableEq

/-- The mutable state of a `CacheHandler` instance: the `cache` map, the
`timesVisited` map (stored as the bare counter), and whether a broadcast
callback has been registered. -/
structure CacheState (V : Type) where
  cache : List (String × CacheEntry V)
  timesVisited : List (String × Nat)
  hasBroadcastCallback : Bool
deriving DecidableEq

/-- A fresh `CacheHandler` with no broadcast callback registered. -/
def CacheState.empty (V : Type) : CacheState V :=
  ⟨[], [], false⟩

/-- The try-block of CacheHandler.set (src/unnamed/part_001 lines 69-79):
serialize, compress above the threshold, and fall back to storing the raw
value when serialization or compression throws. -/
def CacheHandler.encodeEntry {V : Type} (J : JSJson V) (G : GzipLib)
    (data : V) (expiresAt : Nat) : CacheEntry V :=
  match J.stringify data with
  | some jsonStr =>
    if jsonStr.length > COMPRESSION_THRESHOLD then
      match G.gzip jsonStr.data with
      | some c => ⟨Payload.compressed c, expiresAt⟩
      | none => ⟨Payload.raw data, expiresAt⟩
    else ⟨Payload.raw data, expiresAt⟩
  | none => ⟨Payload.raw data, expiresAt⟩

/-- CacheHandler.set (src/unnamed/part_001 lines 66-88).  Returns the new
state, the broadcast messages emitted, and the value handed back to the
caller (the source returns `data` unconditionally). -/
def CacheHandler.set {V : Type} (J : JSJson V) (G : GzipLib) (nodeId : Int)
    (now : Nat) (st : CacheState V) (key : String) (data : V)
    (ttlSeconds : Nat) (isInternal : Bool) :
    CacheState V × List (CacheSyncMessage V) × V :=
  if keyValid key then
    let expiresAt : Nat := if ttlSeconds > 0 then now + ttlSeconds * 1000 else 0
    let entry : CacheEntry V := CacheHandler.encodeEntry J G data expiresAt
    let msgs : List (CacheSyncMessage V) :=
      if st.hasBroadcastCallback && !isInternal then
        [⟨SyncAction.set, key, some data, some expiresAt, nodeId⟩]
      else []
    (⟨mapSet st.cache key entry, st.timesVisited, st.hasBroadcastCallback⟩,
      msgs, data)
  else
    (st, [], data)

/-- CacheHandler.get (src/unnamed/part_001 lines 110-127).  Returns the
possibly-mutated state (expired or undecodable entries are evicted) and the
looked-up value. -/
def CacheHandler.get {V : Type} (J : JSJson V) (G : GzipLib) (now : Nat)
    (st : CacheState V) (key : String) : CacheState V × Option V :=
  match mapGet st.cache key with
  | none => (st, none)
  | some entry =>
    if entry.ttl > 0 && entry.ttl < now then
      (⟨mapDelete st.cache key, st.timesVisited, st.hasBroadcastCallback⟩, none)
    else
      match entry.data with
      | Payload.raw v => (st, some v)
      | Payload.compressed bytes =>
        match G.gunzip bytes with
        | some dec =>
          match J.parse (String.mk dec) with
          | some v => (st, some v)
          | none =>
            (⟨mapDelete st.cache key, st.timesVisited,
              st.hasBroadcastCallback⟩, none)
        | none =>
          (⟨mapDelete st.cache key, st.timesVisited,
            st.hasBroadcastCallback⟩, none)

/-- CacheHandler.delete (src/unnamed/part_001 lines 129-134).  Always
broadcasts when a callback is registered; returns whether an entry existed. -/
def CacheHandler.delete {V : Type} (nodeId : Int) (st : CacheState V)
    (key : String) : CacheState V × List (CacheSyncMessage V) × Bool :=
  let msgs : List (CacheSyncMessage V) :=
    if st.hasBroadcastCallback then
      [⟨SyncAction.del, key, none, none, nodeId⟩]
    else []
  (⟨mapDelete st.cache key, st.timesVisited, st.hasBroadcastCallback⟩,
    msgs, mapHas st.cache key)

/-- CacheHandler.invalidateByPrefix (src/unnamed/part_001 lines 137-146),
renamed because the original name cannot be declared here.  Removes every
entry whose key starts with `pre` and broadcasts one invalidate message per
removed key. -/
def CacheHandler.invalidateStartingWith {V : Type} (nodeId : Int)
    (st : CacheState V) (pre : String) :
    CacheState V × List (CacheSyncMessage V) :=
  let removed := (st.cache.map Prod.fst).filter (fun k => strStarts k pre)
  (⟨st.cache.filter (fun p => !(strStarts p.1 pre)), st.timesVisited,
      st.hasBroadcastCallback⟩,
    if st.hasBroadcastCallback then
      removed.map (fun k => ⟨SyncAction.invalidate, k, none, none, nodeId⟩)
    else [])

/-- TTL modes of CacheHandler.getDynamicTTL (src/unnamed/part_001 line 89). -/
inductive TTLMode where
  | immediate
  | short
  | medium
  | long
  | dynamic
deriving DecidableEq

/-- CacheHandler.getDynamicTTL (src/unnamed/part_001 lines 89-109).  For the
`dynamic` mode it first increments the per-key visit counter (the source
mutates `status.incremental` before comparing), then branches on the updated
counter. -/
def CacheHandler.getDynamicTTL {V : Type} (st : CacheState V) (key : String)
    (mode : TTLMode) : CacheState V × Nat :=
  match mode with
  | TTLMode.immediate => (st, 5 * 60 * 1000)
  | TTLMode.short => (st, 30 * 60 * 1000)
  | TTLMode.medium => (st, 2 * 60 * 60 * 1000)
  | TTLMode.long => (st, 6 * 60 * 60 * 1000)
  | TTLMode.dynamic =>
    let prev : Nat := (mapGet st.timesVisited key).getD 0
    let incr : Nat := prev + 1
    let st' : CacheState V :=
      ⟨st.cache, mapSet st.timesVisited key incr, st.hasBroadcastCallback⟩
    if incr > 5 then (st', 30 * 60 * 1000)
    else if incr > 0 then (st', 2 * 60 * 60 * 1000)
    else (st', 6 * 60 * 60 * 1000)

/-!
Data Access Coordinator: `DatabaseService` (src/src/core/CrudManager.ts).
-/

/-- Domain-specific fields of a record payload (the `Partial<T>` data a caller
supplies, excluding the base fields `id`/`created`/`updated`). -/
def RecordData : Type := List (String × String)

instance : DecidableEq RecordData := by
  unfold RecordData
  infer_instance

/-- A Pocketbase record as the coordinator sees it (`BaseRecord` plus domain
fields; `scaffold` is the marker the batch branch of `create` stamps). -/
structure RecordV where
  id : String
  created : String
  updated : String
  scaffold : Bool
  fields : RecordData
deriving DecidableEq

/-- `PaginatedResponse` (src/src/core/CrudManager.ts lines 18-25). -/
structure PaginatedResponse where
  items : List RecordV
  totalItems : Nat
  totalPages : Nat
  page : Nat
  limit : Nat
  cacheKey : String
deriving DecidableEq

/-- The values the coordinator stores in the (untyped) cache: single records
for `get`, paginated responses for `list`. -/
inductive DBVal where
  | record (r : RecordV)
  | page (p : PaginatedResponse)
deriving DecidableEq

/-- Result shape of Pocketbase `getList`. -/
structure RemoteListResult where
  items : List RecordV
  totalItems : Nat
  totalPages : Nat
  page : Nat
  perPage : Nat
deriving DecidableEq

/-- Errors thrown by the remote store: a 404 (`error.status === 404`) or any
other failure. -/
inductive RemoteErr where
  | notFound
  | other (status : Nat)
deriving DecidableEq

/-- The remote Pocketbase collection API, as an oracle: each method's result
for given arguments.  `Except.error` models the remote call throwing. -/
structure RemoteStore where
  getOne : String → String → Option String → Except RemoteErr RecordV
  getList : String → Nat → Nat → Option String → Option String →
    Option String → Except RemoteErr RemoteListResult
  create : String → RecordData → Except RemoteErr RecordV
  update : String → String → RecordData → Option String →
    Except RemoteErr RecordV
  delete : String → String → Except RemoteErr Bool

/-- Errors a coordinator call can surface: a propagated remote error, or the
TypeError raised in the batch-scaffold branch of `create` (see
`CacheHandler.lookupMethod`). -/
inductive JSError where
  | remote (e : RemoteErr)
  | typeErrorCacheKeys
deriving DecidableEq

/-- Per-call ambient context of a coordinator operation: the JS runtime
facilities, the remote store oracle, the configured node id and the current
time. -/
structure Ctx where
  J : JSJson DBVal
  G : GzipLib
  R : RemoteStore
  nodeId : Int
  now : Nat

/-- The batch queue elements (src/src/core/CrudManager.ts line 31): an action
tag plus the payload fields the source stores for that action. -/
inductive BatchOp where
  | create (collection : String) (data : RecordData)
  | update (collection : String) (id : String) (data : RecordData)
  | del (collection : String) (id : String)
deriving DecidableEq

/-- The mutable state of a `DatabaseService` instance. -/
structure DBState where
  cache : CacheState DBVal
  isBatchMode : Bool
  batchQueue : List BatchOp
deriving DecidableEq

/-- A fresh `DatabaseService` over an empty cache. -/
def DBState.empty : DBState :=
  ⟨CacheState.empty DBVal, false, []⟩

/-- DatabaseService.setBatch (src/src/core/CrudManager.ts lines 38-40). -/
def DatabaseService.setBatch (st : DBState) (enable : Bool) : DBState :=
  ⟨st.cache, enable, st.batchQueue⟩

/-- A part of a cache key before normalization: the source passes strings,
numbers and possibly-undefined expressions to `generateCacheKey`. -/
inductive KeyPart where
  | str (s : String)
  | num (n : Nat)
  | undef
deriving DecidableEq

/-- JS truthiness of a key part (`filter(Boolean)` keeps it). -/
def KeyPart.truthy : KeyPart → Bool
  | KeyPart.str s => !(s = "")
  | KeyPart.num n => !(n = 0)
  | KeyPart.undef => false

/-- String rendering of a truthy key part, as `Array.join` coerces it. -/
def KeyPart.render : KeyPart → String
  | KeyPart.str s => s
  | KeyPart.num n => toString n
  | KeyPart.undef => "undefined"

/-- DatabaseService.generateCacheKey (src/src/core/CrudManager.ts lines
42-45): `parts.filter(Boolean).join(":")`. -/
def DatabaseService.generateCacheKey (parts : List KeyPart) : String :=
  String.intercalate ":" ((parts.filter KeyPart.truthy).map KeyPart.render)

/-- TTL modes of the coordinator's own getDynamicTTL (src/src/core/
CrudManager.ts line 48); note this is distinct from the cache engine's. -/
inductive DBTTLMode where
  | short
  | medium
  | long
deriving DecidableEq

/-- DatabaseService.getDynamicTTL (src/src/core/CrudManager.ts lines 47-54).
Returns a ttl in seconds (it is passed to `cache.set`'s `ttlSeconds`
argument); the default mode at every call site is `medium`. -/
def DatabaseService.getDynamicTTL (_key : String) (mode : DBTTLMode) : Nat :=
  match mode with
  | DBTTLMode.short => 10 * 60
  | DBTTLMode.medium => 60 * 60
  | DBTTLMode.long => 6 * 60 * 60

/-- `expand?.join(",")` as a key part: undefined when `expand` is absent. -/
def expandPart (expand : Option (List String)) : KeyPart :=
  match expand with
  | some e => KeyPart.str (String.intercalate "," e)
  | none => KeyPart.undef

/-- `expand && { expand: expand.join(",") }`: the option string handed to the
remote store. -/
def expandJoin (expand : Option (List String)) : Option String :=
  expand.map (String.intercalate ",")

/-- The cache key `get` computes (src/src/core/CrudManager.ts line 80). -/
def DatabaseService.getKey (collection id : String)
    (expand : Option (List String)) : String :=
  DatabaseService.generateCacheKey
    [KeyPart.str collection, KeyPart.str "get", KeyPart.str id,
      expandPart expand]

/-- DatabaseService.get (src/src/core/CrudManager.ts lines 74-95).  Returns
the new state, broadcast messages, and the call's outcome: `ok none` for a
remote 404, `ok (some (value, cacheKey))` otherwise (the source spreads the
cache key into the returned object). -/
def DatabaseService.get (cx : Ctx) (st : DBState) (collection id : String)
    (expand : Option (List String)) :
    DBState × List (CacheSyncMessage DBVal) ×
      Except JSError (Option (DBVal × String)) :=
  let cacheKey := DatabaseService.getKey collection id expand
  let res := CacheHandler.get cx.J cx.G cx.now st.cache cacheKey
  match res.2 with
  | some v => (⟨res.1, st.isBatchMode, st.batchQueue⟩, [],
      Except.ok (some (v, cacheKey)))
  | none =>
    match cx.R.getOne collection id (expandJoin expand) with
    | Except.ok record =>
      let ttl := DatabaseService.getDynamicTTL cacheKey DBTTLMode.medium
      let r2 := CacheHandler.set cx.J cx.G cx.nodeId cx.now res.1 cacheKey
        (DBVal.record record) ttl false
      (⟨r2.1, st.isBatchMode, st.batchQueue⟩, r2.2.1,
        Except.ok (some (DBVal.record record, cacheKey)))
    | Except.error RemoteErr.notFound =>
      (⟨res.1, st.isBatchMode, st.batchQueue⟩, [], Except.ok none)
    | Except.error e =>
      (⟨res.1, st.isBatchMode, st.batchQueue⟩, [],
        Except.error (JSError.remote e))

/-- `ListOptions` (src/src/core/CrudManager.ts lines 10-16); `none` models an
absent (undefined) field. -/
structure ListOptions where
  page : Option Nat
  limit : Option Nat
  filter : Option String
  sort : Option String
  expand : Option (List String)
deriving DecidableEq

/-- An option string as a key part (`undefined` when absent). -/
def optPart (o : Option String) : KeyPart :=
  match o with
  | some s => KeyPart.str s
  | none => KeyPart.undef

/-- The cache key `list` computes (src/src/core/CrudManager.ts line 103),
after applying the destructuring defaults `page = 1`, `limit = 10`. -/
def DatabaseService.listKey (collection : String) (o : ListOptions) : String :=
  DatabaseService.generateCacheKey
    [KeyPart.str collection, KeyPart.str "list", KeyPart.num (o.page.getD 1),
      KeyPart.num (o.limit.getD 10), optPart o.filter, optPart o.sort,
      expandPart o.expand]

/-- DatabaseService.list (src/src/core/CrudManager.ts lines 97-125).  A cache
hit returns the cached value as-is; a miss fetches, assembles the
`PaginatedResponse` and caches it. -/
def DatabaseService.list (cx : Ctx) (st : DBState) (collection : String)
    (o : ListOptions) :
    DBState × List (CacheSyncMessage DBVal) × Except JSError DBVal :=
  let cacheKey := DatabaseService.listKey collection o
  let res := CacheHandler.get cx.J cx.G cx.now st.cache cacheKey
  match res.2 with
  | some v => (⟨res.1, st.isBatchMode, st.batchQueue⟩, [], Except.ok v)
  | none =>
    match cx.R.getList collection (o.page.getD 1) (o.limit.getD 10) o.filter
        o.sort (expandJoin o.expand) with
    | Except.ok result =>
      let response : PaginatedResponse :=
        ⟨result.items, result.totalItems, result.totalPages, result.page,
          result.perPage, cacheKey⟩
      let ttl := DatabaseService.getDynamicTTL cacheKey DBTTLMode.medium
      let r2 := CacheHandler.set cx.J cx.G cx.nodeId cx.now res.1 cacheKey
        (DBVal.page response) ttl false
      (⟨r2.1, st.isBatchMode, st.batchQueue⟩, r2.2.1,
        Except.ok (DBVal.page response))
    | Except.error e =>
      (⟨res.1, st.isBatchMode, st.batchQueue⟩, [],
        Except.error (JSError.remote e))

/-- The public methods the `CacheHandler` class defines (src/unnamed/part_001
lines 53-158).  `keys` is not among them: member lookup for any other name
yields `undefined`. -/
def CacheHandler.lookupMethod (name : String) : Option String :=
  if name = "setBroadcastCallback" then some name
  else if name = "set" then some name
  else if name = "getDynamicTTL" then some name
  else if name = "get" then some name
  else if name = "delete" then some name
  else if name = "invalidateByPrefix" then some name
  else none

/-- DatabaseService.create (src/src/core/CrudManager.ts lines 128-161).
`scaffoldId` stands for the `Math.random()`-derived id and `nowIso` for
`new Date().toISOString()`.  In the batch-scaffold branch the source builds
the scaffold record and then evaluates `this.cache.keys()`; by
`CacheHandler.lookupMethod`, the cache class defines no `keys` member, so the
access yields `undefined` and the call raises a TypeError before anything is
enqueued or returned. -/
def DatabaseService.create (cx : Ctx) (st : DBState) (collection : String)
    (data : RecordData) (scaffoldId nowIso : String) (useScaffold : Bool) :
    DBState × List (CacheSyncMessage DBVal) × Except JSError RecordV :=
  if st.isBatchMode && useScaffold then
    let _scaffoldRecord : RecordV := ⟨scaffoldId, nowIso, nowIso, true, data⟩
    match CacheHandler.lookupMethod "keys" with
    | none => (st, [], Except.error JSError.typeErrorCacheKeys)
    | some _ =>
      -- Unreachable: `lookupMethod "keys" = none` by computation.  The
      -- branch the source intends (prepending the scaffold to every cached
      -- list page, enqueueing the create, returning the scaffold) is never
      -- reached by the code as written.
      (st, [], Except.error JSError.typeErrorCacheKeys)
  else
    match cx.R.create collection data with
    | Except.ok record =>
      let r := CacheHandler.invalidateStartingWith cx.nodeId st.cache
        (DatabaseService.generateCacheKey
          [KeyPart.str collection, KeyPart.str "list"])
      (⟨r.1, st.isBatchMode, st.batchQueue⟩, r.2, Except.ok record)
    | Except.error e => (st, [], Except.error (JSError.remote e))

/-- DatabaseService.update (src/src/core/CrudManager.ts lines 163-181).  In
batch mode it enqueues and returns `{ id, created: "", updated: "", ...data }`
without touching remote store or cache; otherwise it updates remotely, deletes
the (expand-less) get key and invalidates the collection's list keys. -/
def DatabaseService.update (cx : Ctx) (st : DBState) (collection id : String)
    (data : RecordData) (expand : Option (List String)) :
    DBState × List (CacheSyncMessage DBVal) × Except JSError RecordV :=
  if st.isBatchMode then
    (⟨st.cache, st.isBatchMode,
        st.batchQueue ++ [BatchOp.update collection id data]⟩, [],
      Except.ok ⟨id, "", "", false, data⟩)
  else
    match cx.R.update collection id data (expandJoin expand) with
    | Except.ok record =>
      let r1 := CacheHandler.delete cx.nodeId st.cache
        (DatabaseService.generateCacheKey
          [KeyPart.str collection, KeyPart.str "get", KeyPart.str id])
      let r2 := CacheHandler.invalidateStartingWith cx.nodeId r1.1
        (DatabaseService.generateCacheKey
          [KeyPart.str collection, KeyPart.str "list"])
      (⟨r2.1, st.isBatchMode, st.batchQueue⟩, r1.2.1 ++ r2.2,
        Except.ok record)
    | Except.error e => (st, [], Except.error (JSError.remote e))

/-- DatabaseService.delete (src/src/core/CrudManager.ts lines 184-196).  In
batch mode it enqueues and returns true; otherwise it deletes remotely and
performs cache invalidation only when the remote result is truthy. -/
def DatabaseService.delete (cx : Ctx) (st : DBState) (collection id : String) :
    DBState × List (CacheSyncMessage DBVal) × Except JSError Bool :=
  if st.isBatchMode then
    (⟨st.cache, st.isBatchMode,
        st.batchQueue ++ [BatchOp.del collection id]⟩, [], Except.ok true)
  else
    match cx.R.delete collection id with
    | Except.ok success =>
      if success then
        let r1 := CacheHandler.delete cx.nodeId st.cache
          (DatabaseService.generateCacheKey
            [KeyPart.str collection, KeyPart.str "get", KeyPart.str id])
        let r2 := CacheHandler.invalidateStartingWith cx.nodeId r1.1
          (DatabaseService.generateCacheKey
            [KeyPart.str collection, KeyPart.str "list"])
        (⟨r2.1, st.isBatchMode, st.batchQueue⟩, r1.2.1 ++ r2.2,
          Except.ok true)
      else (st, [], Except.ok false)
    | Except.error e => (st, [], Except.error (JSError.remote e))

/-- One iteration body of the `saveChanges` loop: dispatch a queued operation
through the corresponding `DatabaseService` call exactly as the source does
(`create` with `useScaffold = false`, `update` without expand).  Broadcast
messages are not observed by `saveChanges`. -/
def DatabaseService.dispatchOp (cx : Ctx) (st : DBState) (op : BatchOp) :
    DBState × Except JSError Unit :=
  match op with
  | BatchOp.create collection data =>
    let r := DatabaseService.create cx st collection data "" "" false
    (r.1, r.2.2.map (fun _ => ()))
  | BatchOp.update collection id data =>
    let r := DatabaseService.update cx st collection id data none
    (r.1, r.2.2.map (fun _ => ()))
  | BatchOp.del collection id =>
    let r := DatabaseService.delete cx st collection id
    (r.1, r.2.2.map (fun _ => ()))

/-- DatabaseService.saveChanges (src/src/core/CrudManager.ts lines 56-72).
The source iterates `for (const op of this.batchQueue)` while the dispatched
calls may push onto the same array, so the loop is modelled index-by-index on
the current queue, with explicit fuel: a `none` result means the loop has not
terminated within `fuel` iterations.  When the index runs off the end of the
queue, the queue is cleared and batch mode turned off. -/
def DatabaseService.saveChangesLoop (cx : Ctx) :
    Nat → Nat → DBState → Option (DBState × Except JSError Unit)
  | 0, _, _ => none
  | fuel + 1, i, st =>
    match st.batchQueue[i]? with
    | some op =>
      let r := DatabaseService.dispatchOp cx st op
      match r.2 with
      | Except.error e => some (r.1, Except.error e)
      | Except.ok _ => DatabaseService.saveChangesLoop cx fuel (i + 1) r.1
    | none => some (⟨st.cache, false, []⟩, Except.ok ())

/-- DatabaseService.saveChanges: run the loop from index 0 with the given
fuel. -/
def DatabaseService.saveChanges (cx : Ctx) (fuel : Nat) (st : DBState) :
    Option (DBState × Except JSError Unit) :=
  DatabaseService.saveChangesLoop cx fuel 0 st

/-!
Derived definitions used by the statements below.
-/

/-- The state transformation of one `dynamic`-mode `getDynamicTTL` call. -/
def dynStep {V : Type} (key : String) (st : CacheState V) : CacheState V :=
  (CacheHandler.getDynamicTTL st key TTLMode.dynamic).1

/-- The cache state after `n` successive `dynamic`-mode `getDynamicTTL` calls
for `key`. -/
def dynIter {V : Type} (key : String) (st : CacheState V) : Nat → CacheState V
  | 0 => st
  | n + 1 => dynStep key (dynIter key st n)

/-- The value returned by the `n`-th successive call (1-indexed) of
`getDynamicTTL(key, "dynamic")` starting from a fresh cache handler. -/
def nthDynTTL (key : String) (n : Nat) : Nat :=
  (CacheHandler.getDynamicTTL (dynIter key (CacheState.empty Nat) (n - 1)) key
    TTLMode.dynamic).2

/-- A cache state is well-formed when every stored key passed the `set`
guard; every reachable state is, since `set` is the only way entries are
created. -/
def CacheWF {V : Type} (st : CacheState V) : Prop :=
  ∀ p ∈ st.cache, keyValid p.1 = true

/-- A JSON bundle for `DBVal` whose stringify always throws, forcing the
uncompressed fallback path; used to instantiate concrete runs. -/
def J0 : JSJson DBVal := ⟨fun _ => none, fun _ => none⟩

/-- A JSON bundle for `Nat` whose stringify always throws. -/
def JN : JSJson Nat := ⟨fun _ => none, fun _ => none⟩

/-- A JSON bundle for `Nat` values rendered as `n` repetitions of `a`, with
the exact inverse parser; its serializations can exceed the compression
threshold. -/
def JBig : JSJson Nat :=
  ⟨fun n => some (String.mk (List.replicate n 'a')), fun t => some t.data.length⟩

/-- A gzip bundle that always throws. -/
def G0 : GzipLib := ⟨fun _ => none, fun _ => none⟩

/-- A gzip bundle given by the identity coding (a stand-in satisfying the
library's round-trip contract). -/
def GId : GzipLib := ⟨fun b => some b, fun b => some b⟩

/-- A concrete remote record. -/
def r0 : RecordV := ⟨"42", "c0", "u0", false, [("title", "A")]⟩

/-- A remote store whose calls all succeed and return `r0`. -/
def R0 : RemoteStore :=
  ⟨fun _ _ _ => Except.ok r0, fun _ _ _ _ _ _ => Except.ok ⟨[], 0, 0, 1, 10⟩,
    fun _ _ => Except.ok r0, fun _ _ _ _ => Except.ok r0,
    fun _ _ => Except.ok true⟩

/-- A remote store whose calls all fail with a 500. -/
def RErr : RemoteStore :=
  ⟨fun _ _ _ => Except.error (RemoteErr.other 500),
    fun _ _ _ _ _ _ => Except.error (RemoteErr.other 500),
    fun _ _ => Except.error (RemoteErr.other 500),
    fun _ _ _ _ => Except.error (RemoteErr.other 500),
    fun _ _ => Except.error (RemoteErr.other 500)⟩

/-- A concrete call context over `R0` at time 0. -/
def cx0 : Ctx := ⟨J0, G0, R0, 0, 0⟩

/-- A concrete call context whose remote store always fails: any non-error
result of a read must have come from the cache. -/
def cxErr : Ctx := ⟨J0, G0, RErr, 0, 0⟩

/-- State after a cold `get("posts", "42", ["author"])`: the fetched record is
cached under the expand-carrying key. -/
def stC5a : DBState :=
  (DatabaseService.get cx0 DBState.empty "posts" "42" (some ["author"])).1

/-- State after a subsequent non-batch `update("posts", "42", ...)`. -/
def stC5b : DBState :=
  (DatabaseService.update cx0 stC5a "posts" "42" [("title", "B")] none).1

/-- The key `update`/`delete` use to drop the point-get cache entry
(src/src/core/CrudManager.ts lines 178 and 192): note it carries no expand
part. -/
def updateDeleteKey (collection id : String) : String :=
  DatabaseService.generateCacheKey
    [KeyPart.str collection, KeyPart.str "get", KeyPart.str id]

/-- The prefix under which all of a collection's list pages are cached. -/
def listKeyPfx (collection : String) : String :=
  DatabaseService.generateCacheKey [KeyPart.str collection, KeyPart.str "list"]

/-!
Supporting lemmas.
-/

theorem mapGet_mapSet_self {β : Type} (m : List (String × β)) (k : String)
    (v : β) : mapGet (mapSet m k v) k = some v := by
  induction m with
  | nil => simp [mapSet, mapGet]
  | cons p rest ih =>
    obtain ⟨k', v'⟩ := p
    by_cases h : k' = k
    · simp [mapSet, mapGet, h]
    · simp [mapSet, mapGet, h, ih]

theorem mapGet_filter_none {β : Type} (q : String × β → Bool)
    (m : List (String × β)) (k : String) (h : ∀ v, q (k, v) = false) :
    mapGet (m.filter q) k = none := by
  induction m with
  | nil => rfl
  | cons p rest ih =>
    obtain ⟨k', v'⟩ := p
    by_cases hk : k' = k
    · subst hk
      simp only [List.filter_cons, h v']
      exact ih
    · rcases hq : q (k', v') with _ | _
      · simp only [List.filter_cons, hq]
        exact ih
      · simp only [List.filter_cons, hq, mapGet, if_neg hk]
        exact ih

theorem mapGet_filter_of_none {β : Type} (q : String × β → Bool)
    (m : List (String × β)) (k : String) (h : mapGet m k = none) :
    mapGet (m.filter q) k = none := by
  induction m with
  | nil => rfl
  | cons p rest ih =>
    obtain ⟨k', v'⟩ := p
    by_cases hk : k' = k
    · simp [mapGet, hk] at h
    · have hrest : mapGet rest k = none := by
        simpa [mapGet, hk] using h
      rcases hq : q (k', v') with _ | _
      · simp only [List.filter_cons, hq]
        exact ih hrest
      · simp only [List.filter_cons, hq, mapGet, if_neg hk]
        exact ih hrest

theorem mapGet_mapDelete_self {β : Type} (m : List (String × β)) (k : String) :
    mapGet (mapDelete m k) k = none := by
  unfold mapDelete
  apply mapGet_filter_none
  intro v
  simp

theorem mapGet_none_of_invalid {β : Type} (m : List (String × β)) (k : String)
    (hwf : ∀ p ∈ m, keyValid p.1 = true) (hk : keyValid k = false) :
    mapGet m k = none := by
  induction m with
  | nil => rfl
  | cons p rest ih =>
    obtain ⟨k', v'⟩ := p
    have hk' : keyValid k' = true := hwf (k', v') (List.mem_cons_self _ _)
    have hne : k' ≠ k := fun he => by rw [he, hk] at hk'; exact Bool.noConfusion hk'
    simp only [mapGet, if_neg hne]
    exact ih (fun p hp => hwf p (List.mem_cons_of_mem _ hp))

theorem CacheHandler.encodeEntry_ttl {V : Type} (J : JSJson V) (G : GzipLib)
    (v : V) (x : Nat) : (CacheHandler.encodeEntry J G v x).ttl = x := by
  unfold CacheHandler.encodeEntry
  rcases hs : J.stringify v with _ | s
  · rfl
  · dsimp only
    by_cases hl : s.length > COMPRESSION_THRESHOLD
    · simp only [if_pos hl]
      rcases hz : G.gzip s.data with _ | c <;> rfl
    · simp only [if_neg hl]

theorem CacheHandler.set_eq_of_valid {V : Type} (J : JSJson V) (G : GzipLib)
    (nodeId : Int) (now : Nat) (st : CacheState V) (key : String) (v : V)
    (ttlSeconds : Nat) (isInternal : Bool) (hkey : keyValid key = true) :
    CacheHandler.set J G nodeId now st key v ttlSeconds isInternal =
      (⟨mapSet st.cache key
          (CacheHandler.encodeEntry J G v
            (if ttlSeconds > 0 then now + ttlSeconds * 1000 else 0)),
        st.timesVisited, st.hasBroadcastCallback⟩,
       (if st.hasBroadcastCallback && !isInternal then
         [⟨SyncAction.set, key, some v,
           some (if ttlSeconds > 0 then now + ttlSeconds * 1000 else 0),
           nodeId⟩]
        else []), v) := by
  simp only [CacheHandler.set, hkey, if_true]

theorem CacheHandler.get_of_entry_live {V : Type} (J : JSJson V) (G : GzipLib)
    (t : Nat) (st : CacheState V) (key : String) (v : V) (e : CacheEntry V)
    (he : mapGet st.cache key = some e)
    (hlive : ¬(e.ttl > 0 ∧ e.ttl < t))
    (hdec : e.data = Payload.raw v ∨
      ∃ s c, e.data = Payload.compressed c ∧ G.gunzip c = some s.data ∧
        J.parse s = some v) :
    (CacheHandler.get J G t st key).2 = some v := by
  unfold CacheHandler.get
  rw [he]
  have hcond : (decide (e.ttl > 0) && decide (e.ttl < t)) = false := by
    rcases Nat.eq_zero_or_pos e.ttl with h0 | hpos
    · simp [h0]
    · have : ¬(e.ttl < t) := fun hlt => hlive ⟨hpos, hlt⟩
      simp [this]
  simp only [hcond, Bool.false_eq_true, if_false]
  rcases hdec with hraw | ⟨s, c, hc, huz, hp⟩
  · rw [hraw]
  · rw [hc]
    dsimp only
    rw [huz]
    dsimp only
    have hmk : String.mk s.data = s := rfl
    rw [hmk, hp]

theorem CacheHandler.get_of_entry_expired {V : Type} (J : JSJson V)
    (G : GzipLib) (t : Nat) (st : CacheState V) (key : String)
    (e : CacheEntry V) (he : mapGet st.cache key = some e)
    (hpos : 0 < e.ttl) (hlt : e.ttl < t) :
    (CacheHandler.get J G t st key).2 = none := by
  unfold CacheHandler.get
  rw [he]
  have hcond : (decide (e.ttl > 0) && decide (e.ttl < t)) = true := by
    simp [hpos, hlt]
  simp only [hcond, if_true]

theorem CacheHandler.encodeEntry_decodes {V : Type} (J : JSJson V)
    (G : GzipLib) (v : V) (x : Nat)
    (hcodec : ∀ s, J.stringify v = some s →
      J.parse s = some v ∧ ∀ c, G.gzip s.data = some c →
        G.gunzip c = some s.data) :
    (CacheHandler.encodeEntry J G v x).data = Payload.raw v ∨
      ∃ s c, (CacheHandler.encodeEntry J G v x).data = Payload.compressed c ∧
        G.gunzip c = some s.data ∧ J.parse s = some v := by
  unfold CacheHandler.encodeEntry
  rcases hs : J.stringify v with _ | s
  · exact Or.inl rfl
  · dsimp only
    by_cases hl : s.length > COMPRESSION_THRESHOLD
    · simp only [if_pos hl]
      rcases hz : G.gzip s.data with _ | c
      · exact Or.inl rfl
      · refine Or.inr ⟨s, c, rfl, ?_, (hcodec s hs).1⟩
        exact (hcodec s hs).2 c hz
    · simp only [if_neg hl]
      left
      trivial

theorem dynStep_eq {V : Type} (key : String) (st : CacheState V) :
    dynStep key st = ⟨st.cache,
      mapSet st.timesVisited key ((mapGet st.timesVisited key).getD 0 + 1),
      st.hasBroadcastCallback⟩ := by
  unfold dynStep CacheHandler.getDynamicTTL
  dsimp only
  by_cases h : (mapGet st.timesVisited key).getD 0 + 1 > 5
  · rw [if_pos h]
  · rw [if_neg h, if_pos (Nat.succ_pos _)]

theorem getDynamicTTL_dynamic_result {V : Type} (st : CacheState V)
    (key : String) :
    (CacheHandler.getDynamicTTL st key TTLMode.dynamic).2 =
      if (mapGet st.timesVisited key).getD 0 + 1 > 5 then 30 * 60 * 1000
      else 2 * 60 * 60 * 1000 := by
  unfold CacheHandler.getDynamicTTL
  dsimp only
  by_cases h : (mapGet st.timesVisited key).getD 0 + 1 > 5
  · rw [if_pos h, if_pos h]
  · rw [if_neg h, if_neg h, if_pos (Nat.succ_pos _)]

theorem dynIter_count (key : String) (n : Nat) :
    (mapGet (dynIter key (CacheState.empty Nat) n).timesVisited key).getD 0
      = n := by
  induction n with
  | zero => rfl
  | succ m ih =>
    show (mapGet (dynStep key (dynIter key (CacheState.empty Nat) m)).timesVisited
      key).getD 0 = m + 1
    rw [dynStep_eq]
    dsimp only
    rw [mapGet_mapSet_self, Option.getD_some, ih]

theorem generateCacheKey_filter_congr (l t1 t2 : List KeyPart)
    (h : t1.filter KeyPart.truthy = t2.filter KeyPart.truthy) :
    DatabaseService.generateCacheKey (l ++ t1) =
      DatabaseService.generateCacheKey (l ++ t2) := by
  unfold DatabaseService.generateCacheKey
  rw [List.filter_append, List.filter_append, h]

theorem generateCacheKey_drop_falsy (xs ys : List KeyPart) (p : KeyPart)
    (h : KeyPart.truthy p = false) :
    DatabaseService.generateCacheKey (xs ++ p :: ys) =
      DatabaseService.generateCacheKey (xs ++ ys) := by
  unfold DatabaseService.generateCacheKey
  rw [List.filter_append, List.filter_append, List.filter_cons]
  simp [h]

/-- Helper to rewrite a cache entry whose ttl is known. -/
theorem CacheEntry.eta_ttl {V : Type} (e : CacheEntry V) (x : Nat)
    (h : e.ttl = x) : e = ⟨e.data, x⟩ := by
  cases e
  cases h
  rfl

/-!
Claim theorems.
-/

/-- Claim C3, counterexample: the very first `getDynamicTTL(k, "dynamic")`
call on a fresh key returns 2 hours, not the 6 hours the claim states — the
source increments the visit counter before comparing, so the counter is
already 1 on the first call and the 6-hour branch is never taken. -/
theorem claimC3_counterexample :
    nthDynTTL "k" 1 = 2 * 60 * 60 * 1000 ∧
    nthDynTTL "k" 1 ≠ 6 * 60 * 60 * 1000 := by
  decide

/-- Claim C3, amended: for a fresh key, `getDynamicTTL(k, "dynamic")` returns
2 hours on calls 1 through 5 and 30 minutes from call 6 onward; the 6-hour
first-visit branch of the source is unreachable. -/
theorem claimC3 (key : String) (n : Nat) (h1 : 1 ≤ n) :
    (n ≤ 5 → nthDynTTL key n = 2 * 60 * 60 * 1000) ∧
    (6 ≤ n → nthDynTTL key n = 30 * 60 * 1000) := by
  unfold nthDynTTL
  rw [getDynamicTTL_dynamic_result, dynIter_count]
  refine ⟨fun h5 => ?_, fun h6 => ?_⟩
  · rw [if_neg (by omega)]
  · rw [if_pos (by omega)]

/-- Witness for C3: the sixth call for a fresh key returns 30 minutes. -/
theorem claimC3_witness : nthDynTTL "x" 6 = 30 * 60 * 1000 :=
  (claimC3 "x" 6 (by decide)).2 (by decide)

/-- Claim C10: `generateCacheKey` drops every falsy part before joining with
a colon, so a query differing only in a falsy option field maps to the same
key: a `list` with `filter: ""` shares its key with the same `list` without a
filter, and a `get` with an empty expand list shares its key with a `get`
without expand. -/
theorem claimC10 :
    (∀ (xs ys : List KeyPart) (p : KeyPart), KeyPart.truthy p = false →
      DatabaseService.generateCacheKey (xs ++ p :: ys) =
        DatabaseService.generateCacheKey (xs ++ ys)) ∧
    (∀ collection : String,
      DatabaseService.listKey collection ⟨some 1, some 10, some "", none, none⟩
        = DatabaseService.listKey collection
            ⟨some 1, some 10, none, none, none⟩) ∧
    (∀ collection id : String,
      DatabaseService.getKey collection id (some []) =
        DatabaseService.getKey collection id none) := by
  refine ⟨generateCacheKey_drop_falsy, fun collection => ?_,
    fun collection id => ?_⟩
  · exact generateCacheKey_filter_congr [KeyPart.str collection]
      [KeyPart.str "list", KeyPart.num 1, KeyPart.num 10, KeyPart.str "",
        KeyPart.undef, KeyPart.undef]
      [KeyPart.str "list", KeyPart.num 1, KeyPart.num 10, KeyPart.undef,
        KeyPart.undef, KeyPart.undef]
      (by decide)
  · exact generateCacheKey_filter_congr
      [KeyPart.str collection, KeyPart.str "get", KeyPart.str id]
      [KeyPart.str ""] [KeyPart.undef] (by decide)

/-- Witness for C10: inserting the falsy part `0` leaves a concrete key
unchanged. -/
theorem claimC10_witness :
    DatabaseService.generateCacheKey
        [KeyPart.str "posts", KeyPart.num 0, KeyPart.str "x"] =
      DatabaseService.generateCacheKey [KeyPart.str "posts", KeyPart.str "x"] :=
  claimC10.1 [KeyPart.str "posts"] [KeyPart.str "x"] (KeyPart.num 0)
    (by decide)

/-- Claim C7: for a key containing "undefined" or "null", `set` leaves the
cache state unchanged, emits no broadcast, and still returns the value; on
any well-formed (reachable) state a subsequent `get` of that key returns
absent. -/
theorem claimC7 {V : Type} (J : JSJson V) (G : GzipLib) (nodeId : Int)
    (now t : Nat) (st : CacheState V) (key : String) (v : V)
    (ttlSeconds : Nat) (isInternal : Bool)
    (hbad : strIncludes key "undefined" = true ∨
      strIncludes key "null" = true)
    (hwf : CacheWF st) :
    CacheHandler.set J G nodeId now st key v ttlSeconds isInternal =
      (st, [], v) ∧
    (CacheHandler.get J G t st key).2 = none := by
  have hk : keyValid key = false := by
    unfold keyValid
    rcases hbad with h | h <;> simp [h]
  constructor
  · simp [CacheHandler.set, hk]
  · have hnone : mapGet st.cache key = none :=
      mapGet_none_of_invalid st.cache key hwf hk
    unfold CacheHandler.get
    rw [hnone]

/-- Witness for C7 at the concrete key "a:null". -/
theorem claimC7_witness :
    CacheHandler.set JN G0 0 0 (CacheState.empty Nat) "a:null" 7 5 false =
      (CacheState.empty Nat, [], 7) ∧
    (CacheHandler.get JN G0 99 (CacheState.empty Nat) "a:null").2 = none :=
  claimC7 JN G0 0 0 99 (CacheState.empty Nat) "a:null" 7 5 false
    (Or.inr (by decide)) (fun p hp => absurd hp (List.not_mem_nil p))

/-- Claim C9: with batch mode off, when the remote delete reports `false` the
coordinator returns `false` and the whole state — cache included — is left
untouched, with no broadcast; when the remote delete reports `true`, the
get-cache entry is dropped and every list cache entry of the collection is
invalidated, and `true` is returned. -/
theorem claimC9 (cx : Ctx) (st : DBState) (collection id : String)
    (hb : st.isBatchMode = false) :
    (cx.R.delete collection id = Except.ok false →
      DatabaseService.delete cx st collection id = (st, [], Except.ok false)) ∧
    (cx.R.delete collection id = Except.ok true →
      (DatabaseService.delete cx st collection id).2.2 = Except.ok true ∧
      mapGet (DatabaseService.delete cx st collection id).1.cache.cache
        (updateDeleteKey collection id) = none ∧
      ∀ k, strStarts k (listKeyPfx collection) = true →
        mapGet (DatabaseService.delete cx st collection id).1.cache.cache k
          = none) := by
  constructor
  · intro hf
    unfold DatabaseService.delete
    simp only [hb, Bool.false_eq_true, if_false, hf]
  · intro ht
    have hcache :
        (DatabaseService.delete cx st collection id).1.cache.cache =
          (mapDelete st.cache.cache (updateDeleteKey collection id)).filter
            (fun p => !(strStarts p.1 (listKeyPfx collection))) := by
      unfold DatabaseService.delete
      simp only [hb, Bool.false_eq_true, if_false, ht]
      rfl
    have hret :
        (DatabaseService.delete cx st collection id).2.2 = Except.ok true := by
      unfold DatabaseService.delete
      simp only [hb, Bool.false_eq_true, if_false, ht]
      rfl
    refine ⟨hret, ?_, ?_⟩
    · rw [hcache]
      exact mapGet_filter_of_none _ _ _ (mapGet_mapDelete_self _ _)
    · intro k hk
      rw [hcache]
      apply mapGet_filter_none
      intro v
      simp [hk]

/-- Witness for C9: a concrete successful delete drops the get-cache key and
returns true. -/
theorem claimC9_witness :
    (DatabaseService.delete cx0 DBState.empty "posts" "42").2.2 =
      Except.ok true ∧
    mapGet (DatabaseService.delete cx0 DBState.empty "posts" "42").1.cache.cache
      (updateDeleteKey "posts" "42") = none :=
  ⟨((claimC9 cx0 DBState.empty "posts" "42" rfl).2 rfl).1,
   ((claimC9 cx0 DBState.empty "posts" "42" rfl).2 rfl).2.1⟩

/-- Claim C4: for a valid key, any value and any positive ttl, `get` after
`set` returns the value at any time strictly before the expiry instant
`now + ttl*1000` and returns absent at any time strictly after it.  The
codec hypothesis is the contract of the external JSON/gzip libraries: when
serialization succeeds, parsing inverts it and gunzip inverts gzip. -/
theorem claimC4 {V : Type} (J : JSJson V) (G : GzipLib) (nodeId : Int)
    (now : Nat) (st : CacheState V) (key : String) (v : V) (ttlSeconds : Nat)
    (isInternal : Bool) (hkey : keyValid key = true) (httl : 0 < ttlSeconds)
    (hcodec : ∀ s, J.stringify v = some s → J.parse s = some v ∧
      ∀ c, G.gzip s.data = some c → G.gunzip c = some s.data) :
    (∀ t, t < now + ttlSeconds * 1000 →
      (CacheHandler.get J G t
        (CacheHandler.set J G nodeId now st key v ttlSeconds isInternal).1
        key).2 = some v) ∧
    (∀ t, now + ttlSeconds * 1000 < t →
      (CacheHandler.get J G t
        (CacheHandler.set J G nodeId now st key v ttlSeconds isInternal).1
        key).2 = none) := by
  have hset := CacheHandler.set_eq_of_valid J G nodeId now st key v ttlSeconds
    isInternal hkey
  have hx : (if ttlSeconds > 0 then now + ttlSeconds * 1000 else 0) =
      now + ttlSeconds * 1000 := if_pos httl
  rw [hx] at hset
  have hentry :
      mapGet (CacheHandler.set J G nodeId now st key v ttlSeconds
        isInternal).1.cache key =
        some (CacheHandler.encodeEntry J G v (now + ttlSeconds * 1000)) := by
    rw [hset]
    exact mapGet_mapSet_self _ _ _
  constructor
  · intro t hlt
    refine CacheHandler.get_of_entry_live J G t _ key v
      (CacheHandler.encodeEntry J G v (now + ttlSeconds * 1000))
      hentry ?_ ?_
    · rintro ⟨_, hlt2⟩
      rw [CacheHandler.encodeEntry_ttl] at hlt2
      omega
    · exact CacheHandler.encodeEntry_decodes J G v _ hcodec
  · intro t hgt
    refine CacheHandler.get_of_entry_expired J G t _ key
      (CacheHandler.encodeEntry J G v (now + ttlSeconds * 1000))
      hentry ?_ ?_
    · rw [CacheHandler.encodeEntry_ttl]
      omega
    · rw [CacheHandler.encodeEntry_ttl]
      omega

/-- Witness for C4: a concrete set with ttl 1s is visible at t = 500ms and
absent at t = 2000ms. -/
theorem claimC4_witness :
    (CacheHandler.get JN G0 500
      (CacheHandler.set JN G0 0 0 (CacheState.empty Nat) "k" 7 1 false).1
      "k").2 = some 7 ∧
    (CacheHandler.get JN G0 2000
      (CacheHandler.set JN G0 0 0 (CacheState.empty Nat) "k" 7 1 false).1
      "k").2 = none := by
  have h := claimC4 JN G0 0 0 (CacheState.empty Nat) "k" 7 1 false
    (by decide) (by decide)
    (fun s hs => absurd hs (by simp [JN]))
  exact ⟨h.1 500 (by decide), h.2 2000 (by decide)⟩

/-- Claim C6: for a valid key and a value whose serialization exceeds the
1024-byte threshold (with compression and decompression succeeding, per the
library contract), the stored entry is compressed and, with ttl 0, `get` at
any time decompresses and deserializes back to the original value. -/
theorem claimC6 {V : Type} (J : JSJson V) (G : GzipLib) (nodeId : Int)
    (now : Nat) (st : CacheState V) (key : String) (v : V) (s : String)
    (c : List Char) (hkey : keyValid key = true)
    (hs : J.stringify v = some s) (hlen : COMPRESSION_THRESHOLD < s.length)
    (hz : G.gzip s.data = some c) (huz : G.gunzip c = some s.data)
    (hp : J.parse s = some v) :
    mapGet (CacheHandler.set J G nodeId now st key v 0 false).1.cache key =
      some ⟨Payload.compressed c, 0⟩ ∧
    ∀ t, (CacheHandler.get J G t
      (CacheHandler.set J G nodeId now st key v 0 false).1 key).2 = some v := by
  have hset := CacheHandler.set_eq_of_valid J G nodeId now st key v 0 false
    hkey
  have hx : (if (0 : Nat) > 0 then now + 0 * 1000 else 0) = (0 : Nat) := rfl
  rw [hx] at hset
  have henc : CacheHandler.encodeEntry J G v 0 =
      (⟨Payload.compressed c, 0⟩ : CacheEntry V) := by
    unfold CacheHandler.encodeEntry
    simp only [hs]
    rw [if_pos hlen]
    simp only [hz]
  have hentry :
      mapGet (CacheHandler.set J G nodeId now st key v 0 false).1.cache key =
        some ⟨Payload.compressed c, 0⟩ := by
    rw [hset]
    dsimp only
    rw [henc]
    exact mapGet_mapSet_self _ _ _
  refine ⟨hentry, fun t => ?_⟩
  refine CacheHandler.get_of_entry_live J G t _ key v
    ⟨Payload.compressed c, 0⟩ hentry ?_ ?_
  · rintro ⟨h0, _⟩
    exact absurd h0 (lt_irrefl 0)
  · exact Or.inr ⟨s, c, rfl, huz, hp⟩

/-- Witness for C6: a 1025-character serialization is stored compressed and
read back intact. -/
theorem claimC6_witness :
    mapGet (CacheHandler.set JBig GId 0 0 (CacheState.empty Nat) "k" 1025 0
      false).1.cache "k" =
      some ⟨Payload.compressed (List.replicate 1025 'a'), 0⟩ ∧
    (CacheHandler.get JBig GId 999
      (CacheHandler.set JBig GId 0 0 (CacheState.empty Nat) "k" 1025 0
        false).1 "k").2 = some 1025 := by
  have hlenmk : (String.mk (List.replicate 1025 'a')).length = 1025 := by
    show (List.replicate 1025 'a').length = 1025
    rw [List.length_replicate]
  have hlen : COMPRESSION_THRESHOLD <
      (String.mk (List.replicate 1025 'a')).length := by
    rw [hlenmk]
    decide
  have hp : JBig.parse (String.mk (List.replicate 1025 'a')) = some 1025 := by
    show some (String.mk (List.replicate 1025 'a')).data.length = some 1025
    show some (List.replicate 1025 'a').length = some 1025
    rw [List.length_replicate]
  have h := claimC6 JBig GId 0 0 (CacheState.empty Nat) "k" 1025
    (String.mk (List.replicate 1025 'a')) (List.replicate 1025 'a')
    (by decide) rfl hlen rfl rfl hp
  exact ⟨h.1, h.2 999⟩

/-- Claim C8, counterexample: a concrete cache-miss `get` stores its result
with expiry `now + 3_600_000` ms (1 hour: the coordinator's own
`getDynamicTTL` returns `60 * 60` seconds for its default `medium` mode), not
the 2 hours (`7_200_000` ms) the claim states. -/
theorem claimC8_counterexample :
    mapGet (DatabaseService.get cx0 DBState.empty "posts" "42"
        none).1.cache.cache "posts:get:42" =
      some ⟨Payload.raw (DBVal.record r0), 3600000⟩ ∧
    (3600000 : Nat) ≠ 7200000 := by
  decide

/-- Claim C8, amended: on a cache miss, the coordinator's `get` (and likewise
`list`) stores the fetched result with an expiration of 1 hour after the time
of the set — `DatabaseService.getDynamicTTL` returns `60 * 60` seconds for
the `medium` mode used at both call sites. -/
theorem claimC8 (cx : Ctx) (st : DBState) (collection id : String)
    (expand : Option (List String)) (record : RecordV) (o : ListOptions)
    (lr : RemoteListResult)
    (hmiss : (CacheHandler.get cx.J cx.G cx.now st.cache
      (DatabaseService.getKey collection id expand)).2 = none)
    (hkey : keyValid (DatabaseService.getKey collection id expand) = true)
    (hrem : cx.R.getOne collection id (expandJoin expand) = Except.ok record)
    (hmiss2 : (CacheHandler.get cx.J cx.G cx.now st.cache
      (DatabaseService.listKey collection o)).2 = none)
    (hkey2 : keyValid (DatabaseService.listKey collection o) = true)
    (hrem2 : cx.R.getList collection (o.page.getD 1) (o.limit.getD 10)
      o.filter o.sort (expandJoin o.expand) = Except.ok lr) :
    (∃ p, mapGet (DatabaseService.get cx st collection id
        expand).1.cache.cache (DatabaseService.getKey collection id expand) =
      some ⟨p, cx.now + 60 * 60 * 1000⟩) ∧
    (∃ p, mapGet (DatabaseService.list cx st collection o).1.cache.cache
        (DatabaseService.listKey collection o) =
      some ⟨p, cx.now + 60 * 60 * 1000⟩) := by
  constructor
  · unfold DatabaseService.get
    simp only [hmiss, hrem]
    rw [CacheHandler.set_eq_of_valid _ _ _ _ _ _ _ _ _ hkey]
    dsimp only
    have hmed : DatabaseService.getDynamicTTL
        (DatabaseService.getKey collection id expand) DBTTLMode.medium =
        60 * 60 := rfl
    rw [hmed, if_pos (by decide : (60 : Nat) * 60 > 0)]
    refine ⟨(CacheHandler.encodeEntry cx.J cx.G (DBVal.record record)
      (cx.now + 60 * 60 * 1000)).data, ?_⟩
    rw [mapGet_mapSet_self,
      CacheEntry.eta_ttl _ _ (CacheHandler.encodeEntry_ttl _ _ _ _)]
  · unfold DatabaseService.list
    simp only [hmiss2, hrem2]
    rw [CacheHandler.set_eq_of_valid _ _ _ _ _ _ _ _ _ hkey2]
    dsimp only
    have hmed : DatabaseService.getDynamicTTL
        (DatabaseService.listKey collection o) DBTTLMode.medium =
        60 * 60 := rfl
    rw [hmed, if_pos (by decide : (60 : Nat) * 60 > 0)]
    refine ⟨(CacheHandler.encodeEntry cx.J cx.G
      (DBVal.page ⟨lr.items, lr.totalItems, lr.totalPages, lr.page, lr.perPage,
        DatabaseService.listKey collection o⟩)
      (cx.now + 60 * 60 * 1000)).data, ?_⟩
    rw [mapGet_mapSet_self,
      CacheEntry.eta_ttl _ _ (CacheHandler.encodeEntry_ttl _ _ _ _)]

/-- Witness for C8 at a concrete miss against `R0`. -/
theorem claimC8_witness :
    (∃ p, mapGet (DatabaseService.get cx0 DBState.empty "posts" "42"
        none).1.cache.cache (DatabaseService.getKey "posts" "42" none) =
      some ⟨p, cx0.now + 60 * 60 * 1000⟩) ∧
    (∃ p, mapGet (DatabaseService.list cx0 DBState.empty "posts"
        ⟨some 1, some 10, none, none, none⟩).1.cache.cache
        (DatabaseService.listKey "posts" ⟨some 1, some 10, none, none, none⟩) =
      some ⟨p, cx0.now + 60 * 60 * 1000⟩) :=
  claimC8 cx0 DBState.empty "posts" "42" none r0
    ⟨some 1, some 10, none, none, none⟩ ⟨[], 0, 0, 1, 10⟩
    (by decide) (by decide) rfl (by decide) (by decide) rfl

/-- Claim C5, counterexample: for a non-empty expand list the key `get`
populates differs from the key `update` deletes, and concretely, after a
`get("posts","42",["author"])` populates the cache and a non-batch
`update("posts","42",...)` runs, a second identical `get` is still served
from the cache — its result is `r0` even though the remote store of that
call only returns errors. -/
theorem claimC5_counterexample :
    DatabaseService.getKey "posts" "42" (some ["author"]) ≠
      updateDeleteKey "posts" "42" ∧
    (DatabaseService.get cxErr stC5b "posts" "42" (some ["author"])).2.2 =
      Except.ok (some (DBVal.record r0, "posts:get:42:author")) ∧
    RErr.getOne "posts" "42" (expandJoin (some ["author"])) =
      Except.error (RemoteErr.other 500) := by
  decide

theorem mapGet_filter_of_keep {β : Type} (q : String × β → Bool)
    (m : List (String × β)) (k : String) (h : ∀ v, q (k, v) = true) :
    mapGet (m.filter q) k = mapGet m k := by
  induction m with
  | nil => rfl
  | cons p rest ih =>
    obtain ⟨k', v'⟩ := p
    by_cases hk : k' = k
    · subst hk
      rw [List.filter_cons, if_pos (h v')]
      simp [mapGet]
    · rcases hq : q (k', v') with _ | _
      · rw [List.filter_cons, if_neg (by simp [hq])]
        rw [ih]
        simp [mapGet, hk]
      · rw [List.filter_cons, if_pos hq]
        simp [mapGet, hk, ih]

theorem intercalate_go_concat (s j : String) :
    ∀ (xs : List String) (acc : String),
      String.intercalate.go acc s (xs ++ [j]) =
        String.intercalate.go acc s xs ++ s ++ j := by
  intro xs
  induction xs with
  | nil => intro acc; rfl
  | cons b bs ih =>
    intro acc
    show String.intercalate.go (acc ++ s ++ b) s (bs ++ [j]) =
      String.intercalate.go (acc ++ s ++ b) s bs ++ s ++ j
    exact ih (acc ++ s ++ b)

theorem intercalate_concat (s a j : String) (xs : List String) :
    String.intercalate s ((a :: xs) ++ [j]) =
      String.intercalate s (a :: xs) ++ s ++ j := by
  show String.intercalate.go a s (xs ++ [j]) =
    String.intercalate.go a s xs ++ s ++ j
  exact intercalate_go_concat s j xs a

theorem intercalate_go_acc_ext (s : String) :
    ∀ (xs : List String) (acc : String),
      ∃ t, String.intercalate.go acc s xs = acc ++ t := by
  intro xs
  induction xs with
  | nil => intro acc; exact ⟨"", (String.append_empty acc).symm⟩
  | cons b bs ih =>
    intro acc
    obtain ⟨t, ht⟩ := ih (acc ++ s ++ b)
    refine ⟨s ++ b ++ t, ?_⟩
    show String.intercalate.go (acc ++ s ++ b) s bs = acc ++ (s ++ b ++ t)
    rw [ht]
    simp [String.append_assoc]

theorem intercalate_cons_ext (s a : String) (xs : List String) :
    ∃ t, String.intercalate s (a :: xs) = a ++ t := by
  show ∃ t, String.intercalate.go a s xs = a ++ t
  exact intercalate_go_acc_ext s xs a

theorem strLength_pos_of_ne_empty (j : String) (h : j ≠ "") :
    0 < j.length := by
  cases j with
  | mk d =>
    cases d with
    | nil => exact absurd rfl h
    | cons c cs => simp [String.length]

theorem intercalate_concat_ne (a j : String) (xs : List String)
    (hj : j ≠ "") :
    String.intercalate ":" ((a :: xs) ++ [j]) ≠
      String.intercalate ":" (a :: xs) := by
  rw [intercalate_concat]
  intro he
  have hlen := congrArg String.length he
  rw [String.length_append, String.length_append] at hlen
  have hjpos : 0 < j.length := strLength_pos_of_ne_empty j hj
  have hs : (":" : String).length = 1 := rfl
  rw [hs] at hlen
  omega

theorem filter_parts_shape (c : String) (rest : List KeyPart) :
    List.filter KeyPart.truthy
        (KeyPart.str c :: KeyPart.str "get" :: rest) =
      (if c = "" then [] else [KeyPart.str c]) ++ KeyPart.str "get" ::
        List.filter KeyPart.truthy rest := by
  by_cases hc : c = "" <;> simp [List.filter_cons, KeyPart.truthy, hc]

/-- When the joined expand string is non-empty, the key carrying it differs
from the expand-less key: the former is the latter extended by a colon and a
non-empty segment, so their lengths differ. -/
theorem getKey_ne_of_join_ne (c id j : String) (hj : j ≠ "") :
    DatabaseService.generateCacheKey
        [KeyPart.str c, KeyPart.str "get", KeyPart.str id, KeyPart.str j] ≠
      DatabaseService.generateCacheKey
        [KeyPart.str c, KeyPart.str "get", KeyPart.str id] := by
  unfold DatabaseService.generateCacheKey
  have h4 : ([KeyPart.str c, KeyPart.str "get", KeyPart.str id,
      KeyPart.str j] : List KeyPart) =
      (KeyPart.str c :: KeyPart.str "get" :: [KeyPart.str id]) ++
        [KeyPart.str j] := rfl
  rw [h4, List.filter_append]
  simp only [filter_parts_shape]
  have hfj : List.filter KeyPart.truthy [KeyPart.str j] = [KeyPart.str j] :=
    by simp [KeyPart.truthy, hj]
  rw [hfj]
  by_cases hc : c = ""
  · rw [if_pos hc]
    simp only [List.nil_append, List.map_append, List.map_cons, List.map_nil,
      KeyPart.render]
    exact intercalate_concat_ne "get" j _ hj
  · rw [if_neg hc]
    simp only [List.cons_append, List.nil_append, List.map_append,
      List.map_cons, List.map_nil, KeyPart.render]
    exact intercalate_concat_ne c j
      ("get" :: (List.filter KeyPart.truthy
        [KeyPart.str id]).map KeyPart.render) hj

theorem isPrefixOf_append_cancel (u v w : List Char) :
    (u ++ v).isPrefixOf (u ++ w) = v.isPrefixOf w := by
  induction u with
  | nil => rfl
  | cons a u ih => simp [List.isPrefixOf, ih]

/-- A get key never starts with the collection's list-cache prefix: after the
(possibly empty) collection segment, the get key continues with "get" where
the prefix continues with "list". -/
theorem getKey_not_list_prefixed (c id : String)
    (expand : Option (List String)) :
    strStarts (DatabaseService.getKey c id expand) (listKeyPfx c) = false := by
  by_cases hc : c = ""
  · subst hc
    have hkey : DatabaseService.getKey "" id expand =
        String.intercalate ":" ("get" ::
          (List.filter KeyPart.truthy [KeyPart.str id,
            expandPart expand]).map KeyPart.render) := rfl
    rw [hkey]
    obtain ⟨t, ht⟩ := intercalate_cons_ext ":" "get"
      ((List.filter KeyPart.truthy [KeyPart.str id,
        expandPart expand]).map KeyPart.render)
    rw [ht]
    have hpfx : listKeyPfx "" = "list" := rfl
    rw [hpfx]
    unfold strStarts
    simp only [String.data_append]
    show (['l', 'i', 's', 't'] : List Char).isPrefixOf
      (['g', 'e', 't'] ++ t.data) = false
    simp [List.isPrefixOf]
  · have hkey : DatabaseService.getKey c id expand =
        String.intercalate ":" (c :: "get" ::
          (List.filter KeyPart.truthy [KeyPart.str id,
            expandPart expand]).map KeyPart.render) := by
      unfold DatabaseService.getKey DatabaseService.generateCacheKey
      rw [filter_parts_shape, if_neg hc]
      rfl
    obtain ⟨t, ht⟩ := intercalate_go_acc_ext ":"
      ((List.filter KeyPart.truthy [KeyPart.str id,
        expandPart expand]).map KeyPart.render) (c ++ ":" ++ "get")
    have hkey2 : DatabaseService.getKey c id expand =
        (c ++ ":" ++ "get") ++ t := by
      rw [hkey]
      show String.intercalate.go (c ++ ":" ++ "get") ":" _ = _
      exact ht
    have hpfx : listKeyPfx c = c ++ ":" ++ "list" := by
      unfold listKeyPfx DatabaseService.generateCacheKey
      rw [show List.filter KeyPart.truthy
          [KeyPart.str c, KeyPart.str "list"] =
          [KeyPart.str c, KeyPart.str "list"] from by
        simp [List.filter_cons, KeyPart.truthy, hc]]
      rfl
    rw [hkey2, hpfx]
    unfold strStarts
    simp only [String.data_append, List.append_assoc]
    rw [isPrefixOf_append_cancel, isPrefixOf_append_cancel]
    show (['l', 'i', 's', 't'] : List Char).isPrefixOf
      (['g', 'e', 't'] ++ t.data) = false
    simp [List.isPrefixOf]

/-- Claim C5, amended: non-batch update deletes the get-cache entry under the
expand-less key and removes every cached list entry of the collection; that
invalidation key is identical to the key `get(collection, id, expand)`
populates if and only if the joined expand string is empty (expand absent,
the empty list, or a list joining to the empty string), and every get-cache
entry for this collection and id whose joined expand is non-empty is left
untouched by the update — so such an entry survives, and a subsequent
identical get is served from the stale cache, as the counterexample shows
concretely. -/
theorem claimC5 :
    (∀ (collection id : String) (expand : Option (List String)),
      DatabaseService.getKey collection id expand =
          updateDeleteKey collection id ↔
        (expandJoin expand).getD "" = "") ∧
    (∀ (cx : Ctx) (st : DBState) (collection id : String) (data : RecordData)
      (expand : Option (List String)) (record : RecordV),
      st.isBatchMode = false →
      cx.R.update collection id data (expandJoin expand) = Except.ok record →
      mapGet (DatabaseService.update cx st collection id data
        expand).1.cache.cache (updateDeleteKey collection id) = none ∧
      (∀ k, strStarts k (listKeyPfx collection) = true →
        mapGet (DatabaseService.update cx st collection id data
          expand).1.cache.cache k = none) ∧
      (∀ expand2 : Option (List String),
        (expandJoin expand2).getD "" ≠ "" →
        mapGet (DatabaseService.update cx st collection id data
            expand).1.cache.cache
          (DatabaseService.getKey collection id expand2) =
          mapGet st.cache.cache
            (DatabaseService.getKey collection id expand2))) := by
  have hne : ∀ (collection id : String) (l : List String),
      String.intercalate "," l ≠ "" →
      DatabaseService.getKey collection id (some l) ≠
        updateDeleteKey collection id := by
    intro collection id l hj
    exact getKey_ne_of_join_ne collection id (String.intercalate "," l) hj
  have base : ∀ collection id : String, DatabaseService.generateCacheKey
      ([KeyPart.str collection, KeyPart.str "get", KeyPart.str id] ++ []) =
      updateDeleteKey collection id := by
    intro collection id
    rw [List.append_nil]
    rfl
  constructor
  · intro collection id expand
    cases expand with
    | none =>
      have hkeys : DatabaseService.getKey collection id none =
          updateDeleteKey collection id :=
        calc DatabaseService.getKey collection id none
            = DatabaseService.generateCacheKey
                ([KeyPart.str collection, KeyPart.str "get",
                  KeyPart.str id] ++ [KeyPart.undef]) := rfl
          _ = DatabaseService.generateCacheKey
                ([KeyPart.str collection, KeyPart.str "get",
                  KeyPart.str id] ++ []) :=
              generateCacheKey_drop_falsy _ _ _ (by decide)
          _ = updateDeleteKey collection id := base collection id
      exact iff_of_true hkeys rfl
    | some l =>
      have hgd : (expandJoin (some l)).getD "" =
          String.intercalate "," l := rfl
      rw [hgd]
      constructor
      · intro he
        by_contra hj
        exact hne collection id l hj he
      · intro hj
        calc DatabaseService.getKey collection id (some l)
            = DatabaseService.generateCacheKey
                ([KeyPart.str collection, KeyPart.str "get",
                  KeyPart.str id] ++
                  [KeyPart.str (String.intercalate "," l)]) := rfl
          _ = DatabaseService.generateCacheKey
                ([KeyPart.str collection, KeyPart.str "get",
                  KeyPart.str id] ++ []) :=
              generateCacheKey_drop_falsy _ _ _
                (by simp [KeyPart.truthy, hj])
          _ = updateDeleteKey collection id := base collection id
  · intro cx st collection id data expand record hb hrem
    have hcache :
        (DatabaseService.update cx st collection id data
          expand).1.cache.cache =
          (mapDelete st.cache.cache (updateDeleteKey collection id)).filter
            (fun p => !(strStarts p.1 (listKeyPfx collection))) := by
      unfold DatabaseService.update
      simp only [hb, Bool.false_eq_true, if_false, hrem]
      rfl
    refine ⟨?_, ?_, ?_⟩
    · rw [hcache]
      exact mapGet_filter_of_none _ _ _ (mapGet_mapDelete_self _ _)
    · intro k hk
      rw [hcache]
      apply mapGet_filter_none
      intro v
      simp [hk]
    · intro expand2 hj2
      have hne2 : DatabaseService.getKey collection id expand2 ≠
          updateDeleteKey collection id := by
        cases expand2 with
        | none => exact absurd rfl hj2
        | some l => exact hne collection id l hj2
      have hkeep1 : ∀ v : CacheEntry DBVal,
          (fun p => !(strStarts p.1 (listKeyPfx collection)))
            (DatabaseService.getKey collection id expand2, v) = true := by
        intro v
        simp [getKey_not_list_prefixed]
      have hkeep2 : ∀ v : CacheEntry DBVal,
          (fun p => !(p.1 = updateDeleteKey collection id))
            (DatabaseService.getKey collection id expand2, v) = true := by
        intro v
        simp [hne2]
      rw [hcache, mapGet_filter_of_keep _ _ _ hkeep1]
      exact mapGet_filter_of_keep _ _ _ hkeep2

/-- Witness for C5: with absent expand the two keys coincide and a concrete
update drops that entry, while the entry populated under the expand
`["author"]` is untouched by the same update. -/
theorem claimC5_witness :
    DatabaseService.getKey "posts" "9" none = updateDeleteKey "posts" "9" ∧
    mapGet (DatabaseService.update cx0 DBState.empty "posts" "9"
      [("t", "v")] none).1.cache.cache (updateDeleteKey "posts" "9") = none ∧
    mapGet (DatabaseService.update cx0 stC5a "posts" "42"
        [("title", "B")] none).1.cache.cache
      (DatabaseService.getKey "posts" "42" (some ["author"])) =
      mapGet stC5a.cache.cache
        (DatabaseService.getKey "posts" "42" (some ["author"])) :=
  ⟨(claimC5.1 "posts" "9" none).mpr rfl,
   (claimC5.2 cx0 DBState.empty "posts" "9" [("t", "v")] none r0 rfl rfl).1,
   (claimC5.2 cx0 stC5a "posts" "42" [("title", "B")] none r0 (by decide)
     rfl).2.2 (some ["author"]) (by decide)⟩

/-- Claim C2: the cache class defines no `keys()` method, so the
batch-mode-with-scaffold branch of `create` — which evaluates
`this.cache.keys()` — raises a TypeError instead of returning a scaffold
record, patching cached lists and enqueueing the create. -/
theorem claimC2_create_scaffold_raises :
    CacheHandler.lookupMethod "keys" = none ∧
    ∀ (cx : Ctx) (st : DBState) (collection : String) (data : RecordData)
      (scaffoldId nowIso : String), st.isBatchMode = true →
      DatabaseService.create cx st collection data scaffoldId nowIso true =
        (st, [], Except.error JSError.typeErrorCacheKeys) := by
  have hk : CacheHandler.lookupMethod "keys" = none := by decide
  refine ⟨hk, ?_⟩
  intro cx st collection data scaffoldId nowIso hb
  unfold DatabaseService.create
  simp only [hb, Bool.true_and, if_true, hk]

/-- Witness for C2 at a concrete batch-mode create. -/
theorem claimC2_witness :
    DatabaseService.create cx0 (DatabaseService.setBatch DBState.empty true)
      "posts" [("title", "A")] "r1" "t0" true =
      (DatabaseService.setBatch DBState.empty true, [],
        Except.error JSError.typeErrorCacheKeys) :=
  claimC2_create_scaffold_raises.2 cx0
    (DatabaseService.setBatch DBState.empty true) "posts" [("title", "A")]
    "r1" "t0" rfl

/-- During `saveChanges` the batch flag is still set, so dispatching a queued
update takes the batch branch of `update` and pushes the operation back onto
the queue the loop is iterating; the index never catches up with the
growing queue. -/
theorem saveChangesLoop_update_stuck (cx : Ctx) (c i : String)
    (d : RecordData) :
    ∀ (fuel : Nat) (q : List BatchOp) (st : DBState),
      st.isBatchMode = true →
      st.batchQueue = q ++ [BatchOp.update c i d] →
      DatabaseService.saveChangesLoop cx fuel q.length st = none := by
  intro fuel
  induction fuel with
  | zero => intro q st _ _; rfl
  | succ n ih =>
    intro q st hb hq
    unfold DatabaseService.saveChangesLoop
    rw [hq, List.getElem?_concat_length]
    dsimp only
    have hdisp : DatabaseService.dispatchOp cx st (BatchOp.update c i d) =
        (⟨st.cache, st.isBatchMode,
          st.batchQueue ++ [BatchOp.update c i d]⟩, Except.ok ()) := by
      unfold DatabaseService.dispatchOp DatabaseService.update
      simp only [hb, if_true]
      rfl
    rw [hdisp]
    dsimp only
    have : q.length + 1 = (q ++ [BatchOp.update c i d]).length := by
      simp
    rw [this]
    exact ih (q ++ [BatchOp.update c i d])
      ⟨st.cache, st.isBatchMode, st.batchQueue ++ [BatchOp.update c i d]⟩
      hb (by rw [hq])

/-- Claim C1: `saveChanges` does not dispatch a queued update through the
non-batch path — because `isBatchMode` is only cleared after the loop, the
dispatched `update` re-enqueues itself and the drain never terminates (for
every fuel bound the loop is still running), so the queue is never emptied
and the remote update never happens. -/
theorem claimC1_saveChanges_update_diverges (cx : Ctx) (fuel : Nat) :
    DatabaseService.saveChanges cx fuel
      ⟨CacheState.empty DBVal, true,
        [BatchOp.update "posts" "42" [("title", "B")]]⟩ = none :=
  saveChangesLoop_update_stuck cx "posts" "42" [("title", "B")] fuel []
    ⟨CacheState.empty DBVal, true,
      [BatchOp.update "posts" "42" [("title", "B")]]⟩ rfl rfl
